import Mathlib

/-!
Verification of the DistrictRun mileage-based access-tier engine.

This file embeds the core logic of the repository:
  * `calculate_access_tier`, `update_access_tier`, `recalculate_user_mileage`
    (migration `20260108174244_create_mileage_summary_table.sql`, re-stated
    unchanged in `20260113232330_optimize_rls_policies_and_functions.sql`);
  * `grant_drop_access_to_qualifying_users`, `user_has_drop_access` and the
    `drop_access` table with its `UNIQUE(drop_id, user_id)` constraint
    (migration `20260108174318_create_drops_tables.sql`);
  * `meters_to_miles` and the `activities` table with its unique
    `strava_activity_id` (activities migration);
  * the Strava sync edge function: the token-refresh phase, the
    activity-insert loop with its `23505` conflict handling, and the
    success response.

SQL `decimal`/`numeric` values are embedded as `ℚ` (exact arithmetic, as in
Postgres numeric).  Timestamps are embedded as a calendar structure (year,
month, day, time-of-day) ordered lexicographically, which is what
`date_trunc` and month intervals operate on.  Table states are lists of
rows; upserts with `ON CONFLICT` become explicit conditional updates.
-/

namespace DistrictRun

/-! ## Timestamps (timestamptz, date_trunc, month intervals) -/

/-- A point in time, split the way Postgres calendar arithmetic sees it:
year, calendar month, day of month, and the remaining time of day
(as a rational number of days, only its ordering matters here). -/
structure Timestamp where
  year : Int
  month : Int
  day : Int
  tod : ℚ
deriving DecidableEq

/-- Lexicographic order test on timestamps (`<=` of timestamptz). -/
def Timestamp.leb (a b : Timestamp) : Bool :=
  if a.year < b.year then true
  else if b.year < a.year then false
  else if a.month < b.month then true
  else if b.month < a.month then false
  else if a.day < b.day then true
  else if b.day < a.day then false
  else a.tod ≤ b.tod

/-- Strict order test on timestamps (`<` of timestamptz). -/
def Timestamp.ltb (a b : Timestamp) : Bool :=
  !(Timestamp.leb b a)

/-- Gregorian leap-year test. -/
def isLeapYear (y : Int) : Bool :=
  (y % 4 == 0 && !(y % 100 == 0)) || y % 400 == 0

/-- Number of days of a calendar month. -/
def daysInMonth (y m : Int) : Int :=
  if m = 2 then (if isLeapYear y then 29 else 28)
  else if m = 4 ∨ m = 6 ∨ m = 9 ∨ m = 11 then 30
  else 31

/-- Postgres month-level `date_trunc`: first instant of the month of `t`. -/
def dateTruncMonth (t : Timestamp) : Timestamp :=
  { year := t.year, month := t.month, day := 1, tod := 0 }

/-- Postgres year-level `date_trunc`: first instant of the year of `t`. -/
def dateTruncYear (t : Timestamp) : Timestamp :=
  { year := t.year, month := 1, day := 1, tod := 0 }

/-- Postgres subtraction of a one-month interval from `t`: decrement the month (borrowing a
year at January) and clamp the day to the length of the target month. -/
def subOneMonth (t : Timestamp) : Timestamp :=
  let y : Int := if t.month = 1 then t.year - 1 else t.year
  let m : Int := if t.month = 1 then 12 else t.month - 1
  { year := y, month := m, day := min t.day (daysInMonth y m), tod := t.tod }

/-- Modelled from the spec: "first instant of the previous calendar
month" (the spec-side description of the lower bound of the prior-month
window, to be compared with the month-level `date_trunc` that the code
applies to now() minus a one-month interval). -/
def specPrevMonthStart (t : Timestamp) : Timestamp :=
  if t.month = 1 then { year := t.year - 1, month := 12, day := 1, tod := 0 }
  else { year := t.year, month := t.month - 1, day := 1, tod := 0 }

/-! ## Access tier (`calculate_access_tier`) -/

/-- SQL function `calculate_access_tier(miles decimal) RETURNS text`,
transcribed from the migration: 150+ exclusive, 100+ premium, 50+ basic,
otherwise none. -/
def calculate_access_tier (miles : ℚ) : String :=
  if miles ≥ 150 then "exclusive"
  else if miles ≥ 100 then "premium"
  else if miles ≥ 50 then "basic"
  else "none"

/-- Modelled from the spec: the reference step function of §4.4,
written with the two-sided bounds of the spec. -/
def specAccessTier (m : ℚ) : String :=
  if m ≥ 150 then "exclusive"
  else if 100 ≤ m ∧ m < 150 then "premium"
  else if 50 ≤ m ∧ m < 100 then "basic"
  else "none"

/-! ## Distance conversion (`meters_to_miles` and the importer formula) -/

/-- Integer rounding of Postgres `ROUND(numeric)`: half away from zero. -/
def pgRoundInt (x : ℚ) : ℤ :=
  if 0 ≤ x then round x else -(round (-x))

/-- SQL function `meters_to_miles(meters decimal)`:
`ROUND((meters * 0.000621371)::numeric, 2)`. -/
def meters_to_miles (meters : ℚ) : ℚ :=
  (pgRoundInt (meters * (0.000621371 : ℚ) * 100) : ℚ) / 100

/-- The per-activity computation of the importer
`Math.round((activity.distance * 0.000621371) * 100) / 100`
(JavaScript `Math.round` rounds half towards positive infinity, which is
the `round` of Mathlib). -/
def distanceMiles (distance : ℚ) : ℚ :=
  ((round (distance * (0.000621371 : ℚ) * 100) : ℤ) : ℚ) / 100

/-! ## Claim C3: the access tier derivation -/

/-- C3: `calculate_access_tier` is a total deterministic function equal to
the step function of the spec, with the boundary values 49.99 → none,
50.00 → basic, 99.99 → basic, 100.00 → premium, 149.99 → premium,
150.00 → exclusive. -/
theorem access_tier_step_function :
    (∀ m : ℚ, calculate_access_tier m = specAccessTier m)
    ∧ calculate_access_tier (49.99 : ℚ) = "none"
    ∧ calculate_access_tier (50 : ℚ) = "basic"
    ∧ calculate_access_tier (99.99 : ℚ) = "basic"
    ∧ calculate_access_tier (100 : ℚ) = "premium"
    ∧ calculate_access_tier (149.99 : ℚ) = "premium"
    ∧ calculate_access_tier (150 : ℚ) = "exclusive" := by
  refine ⟨?_, by norm_num [calculate_access_tier], by norm_num [calculate_access_tier],
    by norm_num [calculate_access_tier], by norm_num [calculate_access_tier],
    by norm_num [calculate_access_tier], by norm_num [calculate_access_tier]⟩
  intro m
  unfold calculate_access_tier specAccessTier
  simp only [ge_iff_le]
  by_cases h150 : (150 : ℚ) ≤ m
  · simp [h150]
  · by_cases h100 : (100 : ℚ) ≤ m
    · have h : m < 150 := not_le.mp h150
      simp [h150, h100, h]
    · by_cases h50 : (50 : ℚ) ≤ m
      · have h : m < 100 := not_le.mp h100
        simp [h150, h100, h50, h]
      · simp [h150, h100, h50]

/-! ## Claim C9: the distance conversion policy -/

/-- C9: the display distance is `round(meters * 0.000621371, 2)`;
1609.34 meters convert to 1.00 and 10000 meters to 6.21, and on every
non-negative source distance the TypeScript importer formula agrees
exactly with the SQL rounding policy. -/
theorem distance_conversion_policy :
    (∀ m : ℚ, meters_to_miles m
        = (pgRoundInt (m * (0.000621371 : ℚ) * 100) : ℚ) / 100)
    ∧ meters_to_miles (1609.34 : ℚ) = 1
    ∧ meters_to_miles (10000 : ℚ) = (6.21 : ℚ)
    ∧ (∀ m : ℚ, 0 ≤ m → distanceMiles m = meters_to_miles m) := by
  refine ⟨fun m => rfl, by norm_num [meters_to_miles, pgRoundInt, round_eq],
    by norm_num [meters_to_miles, pgRoundInt, round_eq], ?_⟩
  intro m hm
  unfold distanceMiles meters_to_miles pgRoundInt
  rw [if_pos (by positivity)]

/-- Witness for C9 at the concrete input 10000 meters. -/
theorem distance_conversion_policy_witness :
    (0 : ℚ) ≤ 10000 ∧ distanceMiles (10000 : ℚ) = meters_to_miles (10000 : ℚ) :=
  ⟨by norm_num, distance_conversion_policy.2.2.2 10000 (by norm_num)⟩

/-! ## Activity records and mileage summaries -/

/-- A row of the `activities` table, restricted to the columns the core
computations read (`user_id`, unique `strava_activity_id`,
`activity_date`, the two distances, and the derived in-region flag). -/
structure ActivityRow where
  user_id : Nat
  strava_activity_id : Int
  activity_date : Timestamp
  distance_meters : ℚ
  distance_miles : ℚ
  is_dc_metro_area : Bool
deriving DecidableEq

/-- A row of the `mileage_summary` table (one per user). -/
structure MileageSummaryRow where
  user_id : Nat
  current_month_miles : ℚ
  last_month_miles : ℚ
  current_year_miles : ℚ
  total_miles : ℚ
  total_activities : Nat
  dc_activities : Nat
  last_activity_date : Option Timestamp
  access_tier : String
  last_calculated_at : Timestamp
  created_at : Timestamp
  updated_at : Timestamp
deriving DecidableEq

/-- The `WHERE user_id = p_user_id` restriction of the recalculation
query: the own activity records of the user. -/
def userActivities (acts : List ActivityRow) (uid : Nat) : List ActivityRow :=
  acts.filter fun a => a.user_id == uid

/-- SQL `SUM(CASE WHEN cond THEN distance_miles ELSE 0 END)` (with
`COALESCE(..., 0)`: the empty sum is 0). -/
def sumMilesWhen (l : List ActivityRow) (cond : ActivityRow → Bool) : ℚ :=
  (l.map fun a => if cond a then a.distance_miles else 0).sum

/-- SQL `MAX(activity_date)` aggregate (NULL on an empty row set). -/
def maxActivityDate (l : List ActivityRow) : Option Timestamp :=
  l.foldl
    (fun acc a =>
      match acc with
      | none => some a.activity_date
      | some d => if Timestamp.leb d a.activity_date then some a.activity_date else some d)
    none

/-- The row produced by the `INSERT ... SELECT` of
`recalculate_user_mileage` when no summary row exists yet for the user:
column defaults supply `created_at`, and the `set_access_tier` trigger
(`update_access_tier`) fills `access_tier` and `updated_at` before the
insert. -/
def recalcInsertRow (now : Timestamp) (uid : Nat) (acts : List ActivityRow) :
    MileageSummaryRow :=
  let u := userActivities acts uid
  let cm := sumMilesWhen u fun a =>
    Timestamp.leb (dateTruncMonth now) a.activity_date && a.is_dc_metro_area
  { user_id := uid
    current_month_miles := cm
    last_month_miles := sumMilesWhen u fun a =>
      Timestamp.leb (dateTruncMonth (subOneMonth now)) a.activity_date &&
        Timestamp.ltb a.activity_date (dateTruncMonth now) && a.is_dc_metro_area
    current_year_miles := sumMilesWhen u fun a =>
      Timestamp.leb (dateTruncYear now) a.activity_date && a.is_dc_metro_area
    total_miles := sumMilesWhen u fun a => a.is_dc_metro_area
    total_activities := u.length
    dc_activities := (u.filter fun a => a.is_dc_metro_area).length
    last_activity_date := maxActivityDate u
    access_tier := calculate_access_tier cm
    last_calculated_at := now
    created_at := now
    updated_at := now }

/-- The effect of the `ON CONFLICT (user_id) DO UPDATE` branch of
`recalculate_user_mileage` on the existing row: the eight listed columns
are overwritten from the `SELECT`, `user_id` and `created_at` are
retained, and the `set_access_tier` trigger (fired by the update of
`current_month_miles`) recomputes `access_tier` and `updated_at`. -/
def recalcUpdateRow (now : Timestamp) (uid : Nat) (acts : List ActivityRow)
    (old : MileageSummaryRow) : MileageSummaryRow :=
  let u := userActivities acts uid
  let cm := sumMilesWhen u fun a =>
    Timestamp.leb (dateTruncMonth now) a.activity_date && a.is_dc_metro_area
  { user_id := old.user_id
    current_month_miles := cm
    last_month_miles := sumMilesWhen u fun a =>
      Timestamp.leb (dateTruncMonth (subOneMonth now)) a.activity_date &&
        Timestamp.ltb a.activity_date (dateTruncMonth now) && a.is_dc_metro_area
    current_year_miles := sumMilesWhen u fun a =>
      Timestamp.leb (dateTruncYear now) a.activity_date && a.is_dc_metro_area
    total_miles := sumMilesWhen u fun a => a.is_dc_metro_area
    total_activities := u.length
    dc_activities := (u.filter fun a => a.is_dc_metro_area).length
    last_activity_date := maxActivityDate u
    access_tier := calculate_access_tier cm
    last_calculated_at := now
    created_at := old.created_at
    updated_at := now }

/-- SQL function `recalculate_user_mileage(p_user_id)` as a transformer
of the `mileage_summary` table state, given the evaluation instant
`now()` and the full `activities` table: an upsert of the aggregate row
for the user. -/
def recalculate_user_mileage (now : Timestamp) (uid : Nat)
    (acts : List ActivityRow) (summaries : List MileageSummaryRow) :
    List MileageSummaryRow :=
  if summaries.any (fun r => r.user_id == uid) then
    summaries.map fun r =>
      if r.user_id == uid then recalcUpdateRow now uid acts r else r
  else summaries ++ [recalcInsertRow now uid acts]

/-- Row lookup by primary key in the `mileage_summary` state. -/
def getSummary (summaries : List MileageSummaryRow) (uid : Nat) :
    Option MileageSummaryRow :=
  summaries.find? fun r => r.user_id == uid

/-! ## Spec-side window sums (for claim C7) -/

/-- Modelled from the spec: "current-month distance sums in-region
activity miles with activity date at or after the first instant of the
current calendar month". -/
def specCurrentMonthMiles (now : Timestamp) (u : List ActivityRow) : ℚ :=
  ((u.filter fun a =>
      a.is_dc_metro_area && Timestamp.leb (dateTruncMonth now) a.activity_date).map
    (·.distance_miles)).sum

/-- Modelled from the spec: "prior-month distance sums in-region miles
with activity date in [start of previous calendar month, start of
current calendar month)". -/
def specPriorMonthMiles (now : Timestamp) (u : List ActivityRow) : ℚ :=
  ((u.filter fun a =>
      a.is_dc_metro_area && Timestamp.leb (specPrevMonthStart now) a.activity_date &&
        Timestamp.ltb a.activity_date (dateTruncMonth now)).map
    (·.distance_miles)).sum

/-- Modelled from the spec: "current-year distance sums in-region miles
from the first instant of the current calendar year". -/
def specCurrentYearMiles (now : Timestamp) (u : List ActivityRow) : ℚ :=
  ((u.filter fun a =>
      a.is_dc_metro_area && Timestamp.leb (dateTruncYear now) a.activity_date).map
    (·.distance_miles)).sum

/-- Modelled from the spec: "all-time distance sums all in-region miles". -/
def specAllTimeMiles (u : List ActivityRow) : ℚ :=
  ((u.filter fun a => a.is_dc_metro_area).map (·.distance_miles)).sum

/-! ## Helper lemmas for the recalculation claims -/

lemma sumMilesWhen_eq_filter (l : List ActivityRow) (p : ActivityRow → Bool) :
    sumMilesWhen l p = ((l.filter p).map (·.distance_miles)).sum := by
  induction l with
  | nil => simp [sumMilesWhen]
  | cons a t ih =>
      by_cases h : p a <;>
        simp [sumMilesWhen, List.filter_cons, h] <;>
        simpa [sumMilesWhen] using ih

lemma sumMilesWhen_spec (l : List ActivityRow) (p q : ActivityRow → Bool)
    (h : ∀ a, p a = q a) :
    sumMilesWhen l p = ((l.filter q).map (·.distance_miles)).sum := by
  rw [sumMilesWhen_eq_filter, List.filter_congr fun a _ => h a]

lemma truncMonth_subOneMonth (t : Timestamp) :
    dateTruncMonth (subOneMonth t) = specPrevMonthStart t := by
  unfold dateTruncMonth subOneMonth specPrevMonthStart
  by_cases h : t.month = 1 <;> simp [h]

lemma recalcUpdateRow_user_id (now : Timestamp) (uid : Nat)
    (acts : List ActivityRow) (old : MileageSummaryRow) :
    (recalcUpdateRow now uid acts old).user_id = old.user_id := rfl

lemma find?_append_of_none {α : Type} (p : α → Bool) (l₁ l₂ : List α)
    (h : l₁.find? p = none) : (l₁ ++ l₂).find? p = l₂.find? p := by
  induction l₁ with
  | nil => simp
  | cons a t ih =>
      cases hpa : p a with
      | true =>
          rw [List.find?_cons_of_pos _ hpa] at h
          exact absurd h (by simp)
      | false =>
          rw [List.find?_cons_of_neg _ (by simp [hpa])] at h
          rw [List.cons_append, List.find?_cons_of_neg _ (by simp [hpa])]
          exact ih h

/-- After `recalculate_user_mileage`, the summary row of the user exists and
is either the freshly inserted aggregate row, or the updated aggregate
row computed over an existing row. -/
lemma getSummary_recalculate (now : Timestamp) (uid : Nat)
    (acts : List ActivityRow) (st : List MileageSummaryRow) :
    ∃ r, getSummary (recalculate_user_mileage now uid acts st) uid = some r ∧
      (r = recalcInsertRow now uid acts ∨
        ∃ old, r = recalcUpdateRow now uid acts old) := by
  unfold getSummary recalculate_user_mileage
  by_cases h : st.any (fun r => r.user_id == uid)
  · rw [if_pos h]
    have hsome : (st.find? fun r => r.user_id == uid).isSome := by
      rw [List.find?_isSome]
      obtain ⟨x, hx, hpx⟩ := List.any_eq_true.mp h
      exact ⟨x, hx, hpx⟩
    obtain ⟨r₀, hr₀⟩ := Option.isSome_iff_exists.mp hsome
    have hpr₀ : (r₀.user_id == uid) = true := by
      have := List.find?_some hr₀
      simpa using this
    refine ⟨recalcUpdateRow now uid acts r₀, ?_, Or.inr ⟨r₀, rfl⟩⟩
    rw [List.find?_map]
    have hcomp :
        ((fun r : MileageSummaryRow => r.user_id == uid) ∘ fun r =>
          if r.user_id == uid then recalcUpdateRow now uid acts r else r) =
        fun r : MileageSummaryRow => r.user_id == uid := by
      funext r
      simp only [Function.comp_apply]
      by_cases hr : (r.user_id == uid) = true
      · rw [if_pos hr, recalcUpdateRow_user_id]
      · rw [if_neg hr]
    rw [hcomp, hr₀]
    exact congrArg some (if_pos hpr₀)
  · rw [if_neg h]
    have hnone : (st.find? fun r => r.user_id == uid) = none := by
      rw [List.find?_eq_none]
      intro x hx
      by_contra hcontra
      exact h (List.any_eq_true.mpr ⟨x, hx, by simpa using hcontra⟩)
    rw [find?_append_of_none _ _ _ hnone]
    exact ⟨recalcInsertRow now uid acts, by simp [List.find?_cons, recalcInsertRow], Or.inl rfl⟩

/-! ## Claim C7: recalculation window semantics -/

/-- C7: after `recalculate_user_mileage`, the summary row of the user is
the full aggregate of the activity records of that user: the current-month,
prior-month, current-year and all-time distances are the in-region sums
over the calendar windows of the spec anchored at `now`, and both activity
counts range over all activities of the user regardless of window. -/
theorem recalculate_window_semantics (now : Timestamp) (uid : Nat)
    (acts : List ActivityRow) (st : List MileageSummaryRow) :
    ∃ r, getSummary (recalculate_user_mileage now uid acts st) uid = some r
      ∧ r.current_month_miles = specCurrentMonthMiles now (userActivities acts uid)
      ∧ r.last_month_miles = specPriorMonthMiles now (userActivities acts uid)
      ∧ r.current_year_miles = specCurrentYearMiles now (userActivities acts uid)
      ∧ r.total_miles = specAllTimeMiles (userActivities acts uid)
      ∧ r.total_activities = (userActivities acts uid).length
      ∧ r.dc_activities =
          ((userActivities acts uid).filter fun a => a.is_dc_metro_area).length := by
  obtain ⟨r, hfind, hform⟩ := getSummary_recalculate now uid acts st
  refine ⟨r, hfind, ?_⟩
  have hcm : ∀ a : ActivityRow,
      (Timestamp.leb (dateTruncMonth now) a.activity_date && a.is_dc_metro_area) =
      (a.is_dc_metro_area && Timestamp.leb (dateTruncMonth now) a.activity_date) :=
    fun a => Bool.and_comm _ _
  have hlm : ∀ a : ActivityRow,
      (Timestamp.leb (dateTruncMonth (subOneMonth now)) a.activity_date &&
        Timestamp.ltb a.activity_date (dateTruncMonth now) && a.is_dc_metro_area) =
      (a.is_dc_metro_area && Timestamp.leb (specPrevMonthStart now) a.activity_date &&
        Timestamp.ltb a.activity_date (dateTruncMonth now)) := by
    intro a
    rw [truncMonth_subOneMonth]
    cases a.is_dc_metro_area <;>
      cases Timestamp.leb (specPrevMonthStart now) a.activity_date <;>
      cases Timestamp.ltb a.activity_date (dateTruncMonth now) <;> rfl
  have hcy : ∀ a : ActivityRow,
      (Timestamp.leb (dateTruncYear now) a.activity_date && a.is_dc_metro_area) =
      (a.is_dc_metro_area && Timestamp.leb (dateTruncYear now) a.activity_date) :=
    fun a => Bool.and_comm _ _
  rcases hform with hins | ⟨old, hupd⟩ <;> subst r <;>
    exact ⟨sumMilesWhen_spec _ _ _ hcm, sumMilesWhen_spec _ _ _ hlm,
      sumMilesWhen_spec _ _ _ hcy, sumMilesWhen_eq_filter _ _, rfl, rfl⟩

/-! ## Claim C8: recalculation is idempotent -/

lemma recalcUpdateRow_idem (now : Timestamp) (uid : Nat)
    (acts : List ActivityRow) (old : MileageSummaryRow) :
    recalcUpdateRow now uid acts (recalcUpdateRow now uid acts old) =
      recalcUpdateRow now uid acts old := rfl

lemma recalcUpdateRow_insertRow (now : Timestamp) (uid : Nat)
    (acts : List ActivityRow) :
    recalcUpdateRow now uid acts (recalcInsertRow now uid acts) =
      recalcInsertRow now uid acts := rfl

lemma recalcInsertRow_user_id (now : Timestamp) (uid : Nat)
    (acts : List ActivityRow) :
    (recalcInsertRow now uid acts).user_id = uid := rfl

/-- C8: `recalculate_user_mileage` is idempotent — a second run with the
same evaluation instant and the same underlying activity records leaves
the summary table exactly as the first run left it. -/
theorem recalculate_idempotent (now : Timestamp) (uid : Nat)
    (acts : List ActivityRow) (st : List MileageSummaryRow) :
    recalculate_user_mileage now uid acts (recalculate_user_mileage now uid acts st) =
      recalculate_user_mileage now uid acts st := by
  unfold recalculate_user_mileage
  by_cases h : (st.any fun r => r.user_id == uid) = true
  · rw [if_pos h]
    have hany2 : ((st.map fun r =>
        if r.user_id == uid then recalcUpdateRow now uid acts r else r).any
          fun r => r.user_id == uid) = true := by
      rw [List.any_map]
      have hcomp :
          ((fun r : MileageSummaryRow => r.user_id == uid) ∘ fun r =>
            if r.user_id == uid then recalcUpdateRow now uid acts r else r) =
          fun r : MileageSummaryRow => r.user_id == uid := by
        funext r
        simp only [Function.comp_apply]
        by_cases hr : (r.user_id == uid) = true
        · rw [if_pos hr, recalcUpdateRow_user_id]
        · rw [if_neg hr]
      rw [hcomp]
      exact h
    rw [if_pos hany2, List.map_map]
    apply List.map_congr_left
    intro r _
    simp only [Function.comp_apply]
    by_cases hr : (r.user_id == uid) = true
    · rw [if_pos hr]
      have hr2 : ((recalcUpdateRow now uid acts r).user_id == uid) = true := by
        rw [recalcUpdateRow_user_id]; exact hr
      rw [if_pos hr2, recalcUpdateRow_idem]
    · rw [if_neg hr, if_neg hr]
  · rw [if_neg h]
    have hany2 : ((st ++ [recalcInsertRow now uid acts]).any
        fun r => r.user_id == uid) = true := by
      rw [List.any_append]
      simp [recalcInsertRow_user_id]
    rw [if_pos hany2, List.map_append]
    have h1 : (st.map fun r =>
        if r.user_id == uid then recalcUpdateRow now uid acts r else r) = st := by
      nth_rewrite 2 [← List.map_id st]
      apply List.map_congr_left
      intro r hr
      simp only [id_eq]
      rw [if_neg]
      intro hcontra
      exact h (List.any_eq_true.mpr ⟨r, hr, hcontra⟩)
    have h2 : ([recalcInsertRow now uid acts].map fun r =>
        if r.user_id == uid then recalcUpdateRow now uid acts r else r) =
        [recalcInsertRow now uid acts] := by
      simp only [List.map_cons, List.map_nil]
      rw [if_pos (by rw [recalcInsertRow_user_id]; exact beq_self_eq_true uid),
        recalcUpdateRow_insertRow]
    rw [h1, h2]

/-! ## Claim C4: the stored tier is never stale -/

/-- States of the `mileage_summary` table reachable from the empty table
through the only write path of the repository, `recalculate_user_mileage`
(itself invoked after every activity import). -/
inductive ReachableSummaries : List MileageSummaryRow → Prop
  | init : ReachableSummaries []
  | recalc (now : Timestamp) (uid : Nat) (acts : List ActivityRow)
      (st : List MileageSummaryRow) :
      ReachableSummaries st →
      ReachableSummaries (recalculate_user_mileage now uid acts st)

/-- C4: in every reachable `mileage_summary` state, each stored
`access_tier` equals `calculate_access_tier` of its stored
`current_month_miles` — the `set_access_tier` trigger fires on every
write of the current-month distance, so the tier is never stale. -/
theorem access_tier_never_stale (st : List MileageSummaryRow)
    (h : ReachableSummaries st) :
    ∀ r ∈ st, r.access_tier = calculate_access_tier r.current_month_miles := by
  induction h with
  | init => intro r hr; exact absurd hr (List.not_mem_nil r)
  | recalc now uid acts st hst ih =>
      intro r hr
      unfold recalculate_user_mileage at hr
      by_cases hany : (st.any fun x => x.user_id == uid) = true
      · rw [if_pos hany] at hr
        obtain ⟨r₀, hr₀, hfr⟩ := List.mem_map.mp hr
        by_cases h0 : (r₀.user_id == uid) = true
        · rw [if_pos h0] at hfr
          rw [← hfr]
          rfl
        · rw [if_neg h0] at hfr
          rw [← hfr]
          exact ih r₀ hr₀
      · rw [if_neg hany] at hr
        rcases List.mem_append.mp hr with h1 | h2
        · exact ih r h1
        · rw [List.mem_singleton.mp h2]
          rfl

/-- Witness for C4 at a concrete reachable state: the table obtained by
one recalculation over an empty activity store. -/
theorem access_tier_never_stale_witness :
    ReachableSummaries
      (recalculate_user_mileage ⟨2026, 1, 15, 0⟩ 1 [] []) ∧
    ((recalculate_user_mileage ⟨2026, 1, 15, 0⟩ 1 [] []).all fun r =>
      r.access_tier == calculate_access_tier r.current_month_miles) = true := by
  have hreach : ReachableSummaries
      (recalculate_user_mileage ⟨2026, 1, 15, 0⟩ 1 [] []) :=
    ReachableSummaries.recalc _ _ _ _ ReachableSummaries.init
  refine ⟨hreach, List.all_eq_true.mpr ?_⟩
  intro r hr
  rw [beq_iff_eq]
  exact access_tier_never_stale _ hreach r hr

/-! ## Token lifecycle (sync edge function, token-refresh phase) -/

/-- Refresh-exchange response body of the Strava API. -/
structure RefreshTokenRespBody where
  token_type : String
  access_token : String
  expires_at : Int
  expires_in : Int
  refresh_token : String
deriving DecidableEq

/-- The token columns of a `users` row read by the sync handler.
`token_expires_at` is an epoch-millisecond instant. -/
structure UserTokenRow where
  strava_access_token : Option String
  strava_refresh_token : Option String
  token_expires_at : Int
  last_synced_at : Option Int
deriving DecidableEq

/-- Error message thrown by `refreshStravaToken` when the provider
rejects the exchange. -/
def refreshFailedMsg : String := "Failed to refresh Strava token"

/-- Error message returned when the user has no stored credentials. -/
def notConnectedMsg : String := "User has not connected Strava"

/-- Outcome of the token phase: the handler result (error message or
access token to use), the `users` row as stored after the phase, and
whether a refresh exchange was performed. -/
structure TokenPhaseResult where
  outcome : Except String String
  stored : UserTokenRow
  refreshAttempted : Bool

/-- The token section of the sync handler: reject when either stored
credential is missing; if `now >= tokenExpiresAt`, exchange the refresh
credential (`refreshStravaToken`, modelled by its result: `none` when
the provider response is not ok, in which case the thrown error aborts
the request before any database write) and on success persist the new
access/refresh credentials and expiry; otherwise use the stored access
credential unchanged. -/
def tokenPhase (u : UserTokenRow) (now : Int)
    (refreshResult : Option RefreshTokenRespBody) : TokenPhaseResult :=
  match u.strava_access_token, u.strava_refresh_token with
  | some tok, some _ =>
    if now ≥ u.token_expires_at then
      match refreshResult with
      | none =>
          { outcome := Except.error refreshFailedMsg
            stored := u
            refreshAttempted := true }
      | some r =>
          { outcome := Except.ok r.access_token
            stored :=
              { u with
                strava_access_token := some r.access_token
                strava_refresh_token := some r.refresh_token
                token_expires_at := r.expires_at * 1000 }
            refreshAttempted := true }
    else
      { outcome := Except.ok tok, stored := u, refreshAttempted := false }
  | _, _ =>
      { outcome := Except.error notConnectedMsg
        stored := u
        refreshAttempted := false }

/-! ## Claim C5: refresh failure preserves stored credentials -/

/-- C5: for a connected user whose stored expiry is at or before `now`,
the handler performs a refresh exchange; when the exchange fails it
signals the refresh failure and the stored credential state is exactly
the pre-call state. -/
theorem token_refresh_failure_preserves_state (u : UserTokenRow) (now : Int)
    (ha : u.strava_access_token.isSome) (hr : u.strava_refresh_token.isSome)
    (hexp : u.token_expires_at ≤ now) :
    (tokenPhase u now none).refreshAttempted = true
    ∧ (tokenPhase u now none).outcome = Except.error refreshFailedMsg
    ∧ (tokenPhase u now none).stored = u := by
  obtain ⟨oat, ort, texp, lsy⟩ := u
  obtain ⟨tok, htok⟩ := Option.isSome_iff_exists.mp ha
  obtain ⟨rtok, hrtok⟩ := Option.isSome_iff_exists.mp hr
  replace htok : oat = some tok := htok
  replace hrtok : ort = some rtok := hrtok
  have hc : now ≥ texp := hexp
  subst htok
  subst hrtok
  simp only [tokenPhase]
  rw [if_pos hc]
  exact ⟨rfl, rfl, rfl⟩

/-- Sample access credential for the C5 witness. -/
def sampleAccessTok : String := "expired-access"

/-- Sample refresh credential for the C5 witness. -/
def sampleRefreshTok : String := "refresh"

/-- Witness for C5 at a concrete expired credential row. -/
theorem token_refresh_failure_preserves_state_witness :
    ((UserTokenRow.mk (some sampleAccessTok) (some sampleRefreshTok) 5 none).strava_access_token.isSome
      ∧ (UserTokenRow.mk (some sampleAccessTok) (some sampleRefreshTok) 5 none).strava_refresh_token.isSome
      ∧ (UserTokenRow.mk (some sampleAccessTok) (some sampleRefreshTok) 5 none).token_expires_at ≤ 10)
    ∧ ((tokenPhase (UserTokenRow.mk (some sampleAccessTok) (some sampleRefreshTok) 5 none) 10 none).refreshAttempted = true
      ∧ (tokenPhase (UserTokenRow.mk (some sampleAccessTok) (some sampleRefreshTok) 5 none) 10 none).outcome = Except.error refreshFailedMsg
      ∧ (tokenPhase (UserTokenRow.mk (some sampleAccessTok) (some sampleRefreshTok) 5 none) 10 none).stored
          = UserTokenRow.mk (some sampleAccessTok) (some sampleRefreshTok) 5 none) :=
  ⟨⟨rfl, rfl, by norm_num⟩,
    token_refresh_failure_preserves_state
      (UserTokenRow.mk (some sampleAccessTok) (some sampleRefreshTok) 5 none) 10
      rfl rfl (by norm_num)⟩

/-! ## Activity import (sync edge function, insert loop) -/

/-- Postgres unique-violation SQLSTATE, the code the handler checks. -/
def uniqueViolationCode : String := "23505"

/-- The `strava_activity_id UNIQUE` constraint check: does the
`activities` table already hold a row with this external id. -/
def hasActivityId (store : List ActivityRow) (sid : Int) : Bool :=
  store.any fun b => b.strava_activity_id == sid

/-- One `supabase.from("activities").insert(...)` call: a duplicate
external id yields error code 23505 and no new row; otherwise the
environment may fail the statement with some other error code
(`dbFailure`), and on success the row is appended. -/
def insertActivity (store : List ActivityRow) (a : ActivityRow)
    (dbFailure : Option String) : List ActivityRow × Option String :=
  if hasActivityId store a.strava_activity_id then (store, some uniqueViolationCode)
  else
    match dbFailure with
    | some code => (store, some code)
    | none => (store ++ [a], none)

/-- The loop state of the handler: the `activities` table plus the two
counters `insertedCount` and `skippedCount`. -/
structure ImportState where
  store : List ActivityRow
  insertedCount : Nat
  skippedCount : Nat
deriving DecidableEq

/-- One iteration of the insert loop of the handler: on an insert error the
23505 code increments `skippedCount` and any other code increments
neither counter; on success `insertedCount` is incremented. -/
def processActivity (s : ImportState) (a : ActivityRow)
    (dbFailure : Option String) : ImportState :=
  match insertActivity s.store a dbFailure with
  | (st, some code) =>
      if code == uniqueViolationCode then
        { store := st, insertedCount := s.insertedCount, skippedCount := s.skippedCount + 1 }
      else
        { store := st, insertedCount := s.insertedCount, skippedCount := s.skippedCount }
  | (st, none) =>
      { store := st, insertedCount := s.insertedCount + 1, skippedCount := s.skippedCount }

/-- The insert loop of the handler over the filtered run activities, each
paired with the database failure (if any) its insert would hit. -/
def importLoop : ImportState → List (ActivityRow × Option String) → ImportState
  | s, [] => s
  | s, (a, e) :: rest => importLoop (processActivity s a e) rest

/-- The success response body of the handler (status 200 with the three
reported counts). -/
structure SyncResponse where
  status : Nat
  total : Nat
  inserted : Nat
  skipped : Nat
deriving DecidableEq

/-- The import section of the sync handler: run the insert loop over the
filtered activities and report total fetched, inserted and skipped. -/
def syncActivities (store : List ActivityRow)
    (runActivities : List (ActivityRow × Option String)) :
    SyncResponse × List ActivityRow :=
  let fin := importLoop ⟨store, 0, 0⟩ runActivities
  ({ status := 200, total := runActivities.length,
     inserted := fin.insertedCount, skipped := fin.skippedCount }, fin.store)

/-- External ids stored in the activity table. -/
def storeIds (store : List ActivityRow) : List Int :=
  store.map (·.strava_activity_id)

/-- Number of stored rows carrying a given external id. -/
def countId (store : List ActivityRow) (sid : Int) : Nat :=
  (store.filter fun b => b.strava_activity_id == sid).length

/-! ## Helper lemmas for the import claims -/

lemma processActivity_dup (s : ImportState) (a : ActivityRow)
    (e : Option String) (h : hasActivityId s.store a.strava_activity_id = true) :
    processActivity s a e =
      { store := s.store, insertedCount := s.insertedCount,
        skippedCount := s.skippedCount + 1 } := by
  simp [processActivity, insertActivity, h]

lemma processActivity_err (s : ImportState) (a : ActivityRow) (code : String)
    (hdup : hasActivityId s.store a.strava_activity_id = false)
    (hcode : (code == uniqueViolationCode) = false) :
    processActivity s a (some code) = s := by
  simp [processActivity, insertActivity, hdup, hcode]

lemma processActivity_new (s : ImportState) (a : ActivityRow)
    (hdup : hasActivityId s.store a.strava_activity_id = false) :
    processActivity s a none =
      { store := s.store ++ [a], insertedCount := s.insertedCount + 1,
        skippedCount := s.skippedCount } := by
  simp [processActivity, insertActivity, hdup]

/-- Each loop step either leaves the store (and inserted count)
unchanged, or appends one genuinely new row and counts it inserted. -/
lemma processActivity_store_cases (s : ImportState) (a : ActivityRow)
    (e : Option String) :
    ((processActivity s a e).store = s.store ∧
      (processActivity s a e).insertedCount = s.insertedCount) ∨
    ((processActivity s a e).store = s.store ++ [a] ∧
      (processActivity s a e).insertedCount = s.insertedCount + 1 ∧
      hasActivityId s.store a.strava_activity_id = false) := by
  by_cases h : hasActivityId s.store a.strava_activity_id = true
  · rw [processActivity_dup s a e h]
    exact Or.inl ⟨rfl, rfl⟩
  · replace h : hasActivityId s.store a.strava_activity_id = false :=
      Bool.eq_false_iff.mpr h
    cases e with
    | none => rw [processActivity_new s a h]; exact Or.inr ⟨rfl, rfl, h⟩
    | some code =>
        by_cases hcode : (code == uniqueViolationCode) = true
        · left
          constructor <;> simp [processActivity, insertActivity, h, hcode]
        · rw [processActivity_err s a code h (Bool.eq_false_iff.mpr hcode)]
          exact Or.inl ⟨rfl, rfl⟩

lemma processActivity_counts_le (s : ImportState) (a : ActivityRow)
    (e : Option String) :
    (processActivity s a e).insertedCount + (processActivity s a e).skippedCount ≤
      s.insertedCount + s.skippedCount + 1 := by
  by_cases h : hasActivityId s.store a.strava_activity_id = true
  · rw [processActivity_dup s a e h]; dsimp only; omega
  · replace h : hasActivityId s.store a.strava_activity_id = false :=
      Bool.eq_false_iff.mpr h
    cases e with
    | none => rw [processActivity_new s a h]; dsimp only; omega
    | some code =>
        by_cases hcode : (code == uniqueViolationCode) = true
        · have h1 : (processActivity s a (some code)).insertedCount = s.insertedCount := by
            simp [processActivity, insertActivity, h, hcode]
          have h2 : (processActivity s a (some code)).skippedCount = s.skippedCount + 1 := by
            simp [processActivity, insertActivity, h, hcode]
          omega
        · rw [processActivity_err s a code h (Bool.eq_false_iff.mpr hcode)]; omega

lemma hasActivityId_append (store : List ActivityRow) (a : ActivityRow)
    (sid : Int) (h : hasActivityId store sid = true) :
    hasActivityId (store ++ [a]) sid = true := by
  unfold hasActivityId at *
  rw [List.any_append, h]
  rfl

lemma countId_append_ne (store : List ActivityRow) (a : ActivityRow)
    (sid : Int) (h : (a.strava_activity_id == sid) = false) :
    countId (store ++ [a]) sid = countId store sid := by
  simp [countId, List.filter_append, h]

lemma hasActivityId_false_not_mem (store : List ActivityRow) (sid : Int)
    (h : hasActivityId store sid = false) : sid ∉ storeIds store := by
  intro hmem
  obtain ⟨b, hb, hid⟩ := List.mem_map.mp hmem
  unfold hasActivityId at h
  rw [List.any_eq_false] at h
  exact (by simpa using h b hb : ¬ b.strava_activity_id = sid) hid

lemma importLoop_count_preserved (l : List (ActivityRow × Option String)) :
    ∀ (s : ImportState) (sid : Int), hasActivityId s.store sid = true →
      countId (importLoop s l).store sid = countId s.store sid := by
  induction l with
  | nil => intro s sid _; rfl
  | cons p rest ih =>
      intro s sid h
      obtain ⟨a, e⟩ := p
      show countId (importLoop (processActivity s a e) rest).store sid = _
      rcases processActivity_store_cases s a e with ⟨hst, _⟩ | ⟨hst, _, hnew⟩
      · rw [ih _ sid (by rw [hst]; exact h), hst]
      · have hne : (a.strava_activity_id == sid) = false := by
          rw [beq_eq_false_iff_ne]
          intro hcontra
          rw [hcontra] at hnew
          rw [hnew] at h
          exact Bool.false_ne_true h
        rw [ih _ sid (by rw [hst]; exact hasActivityId_append s.store a sid h)]
        rw [hst, countId_append_ne _ _ _ hne]

lemma importLoop_nodup (l : List (ActivityRow × Option String)) :
    ∀ s : ImportState, (storeIds s.store).Nodup →
      (storeIds (importLoop s l).store).Nodup := by
  induction l with
  | nil => intro s h; exact h
  | cons p rest ih =>
      intro s h
      obtain ⟨a, e⟩ := p
      show (storeIds (importLoop (processActivity s a e) rest).store).Nodup
      rcases processActivity_store_cases s a e with ⟨hst, _⟩ | ⟨hst, _, hnew⟩
      · exact ih _ (by rw [hst]; exact h)
      · refine ih _ ?_
        rw [hst]
        have hmem := hasActivityId_false_not_mem s.store a.strava_activity_id hnew
        simp only [storeIds, List.map_append, List.map_cons, List.map_nil]
        rw [List.nodup_append]
        refine ⟨h, List.nodup_singleton _, ?_⟩
        intro x hx hx2
        rw [List.mem_singleton] at hx2
        exact hmem (hx2 ▸ hx)

lemma importLoop_length (l : List (ActivityRow × Option String)) :
    ∀ s : ImportState,
      (importLoop s l).store.length + s.insertedCount =
        s.store.length + (importLoop s l).insertedCount := by
  induction l with
  | nil => intro s; rfl
  | cons p rest ih =>
      intro s
      obtain ⟨a, e⟩ := p
      show (importLoop (processActivity s a e) rest).store.length + s.insertedCount =
        s.store.length + (importLoop (processActivity s a e) rest).insertedCount
      rcases processActivity_store_cases s a e with ⟨hst, hins⟩ | ⟨hst, hins, _⟩
      · have := ih (processActivity s a e)
        rw [hst, hins] at this
        omega
      · have := ih (processActivity s a e)
        rw [hst, hins] at this
        simp only [List.length_append, List.length_cons, List.length_nil] at this
        omega

lemma importLoop_all_dup (l : List (ActivityRow × Option String)) :
    ∀ s : ImportState,
      (∀ p ∈ l, hasActivityId s.store p.1.strava_activity_id = true) →
      (importLoop s l).store = s.store ∧
        (importLoop s l).insertedCount = s.insertedCount ∧
        (importLoop s l).skippedCount = s.skippedCount + l.length := by
  induction l with
  | nil => intro s _; exact ⟨rfl, rfl, rfl⟩
  | cons p rest ih =>
      intro s hall
      obtain ⟨a, e⟩ := p
      have hdup : hasActivityId s.store a.strava_activity_id = true :=
        hall (a, e) (List.mem_cons_self _ _)
      show (importLoop (processActivity s a e) rest).store = s.store
        ∧ (importLoop (processActivity s a e) rest).insertedCount = s.insertedCount
        ∧ (importLoop (processActivity s a e) rest).skippedCount =
            s.skippedCount + ((a, e) :: rest).length
      rw [processActivity_dup s a e hdup]
      obtain ⟨h1, h2, h3⟩ := ih
        { store := s.store, insertedCount := s.insertedCount,
          skippedCount := s.skippedCount + 1 }
        (fun q hq => hall q (List.mem_cons_of_mem _ hq))
      dsimp only at h1 h2 h3
      refine ⟨h1, h2, ?_⟩
      rw [h3]
      simp only [List.length_cons]
      omega

lemma importLoop_counts_le (l : List (ActivityRow × Option String)) :
    ∀ s : ImportState,
      (importLoop s l).insertedCount + (importLoop s l).skippedCount ≤
        s.insertedCount + s.skippedCount + l.length := by
  induction l with
  | nil => intro s; simp [importLoop]
  | cons p rest ih =>
      intro s
      obtain ⟨a, e⟩ := p
      have hstep := processActivity_counts_le s a e
      have hrest := ih (processActivity s a e)
      show (importLoop (processActivity s a e) rest).insertedCount +
          (importLoop (processActivity s a e) rest).skippedCount ≤
        s.insertedCount + s.skippedCount + ((a, e) :: rest).length
      simp only [List.length_cons]
      omega

/-! ## Claim C6: import is idempotent on stored activities -/

/-- C6: over any `activities` table with unique external ids, the insert
loop never duplicates an already-present external id (its row count is
unchanged), keeps external ids unique, counts as inserted exactly the
genuinely new rows, and when every fetched activity is already present
it leaves the table untouched, inserts nothing, and counts every
attempt as skipped rather than failing. -/
theorem import_activities_idempotent (store : List ActivityRow)
    (l : List (ActivityRow × Option String))
    (hnd : (storeIds store).Nodup) :
    (∀ sid : Int, hasActivityId store sid = true →
        countId (importLoop ⟨store, 0, 0⟩ l).store sid = countId store sid)
    ∧ (storeIds (importLoop ⟨store, 0, 0⟩ l).store).Nodup
    ∧ (importLoop ⟨store, 0, 0⟩ l).store.length =
        store.length + (importLoop ⟨store, 0, 0⟩ l).insertedCount
    ∧ ((∀ p ∈ l, hasActivityId store p.1.strava_activity_id = true) →
        (importLoop ⟨store, 0, 0⟩ l).store = store
        ∧ (importLoop ⟨store, 0, 0⟩ l).insertedCount = 0
        ∧ (importLoop ⟨store, 0, 0⟩ l).skippedCount = l.length) := by
  refine ⟨fun sid h => importLoop_count_preserved l ⟨store, 0, 0⟩ sid h,
    importLoop_nodup l ⟨store, 0, 0⟩ hnd, ?_, fun hall => ?_⟩
  · have := importLoop_length l ⟨store, 0, 0⟩
    dsimp only at this
    omega
  · simpa using importLoop_all_dup l ⟨store, 0, 0⟩ hall

/-- Concrete activity row used by the import witnesses. -/
def sampleActivity : ActivityRow :=
  { user_id := 1, strava_activity_id := 7, activity_date := ⟨2026, 1, 10, 0⟩,
    distance_meters := 5000, distance_miles := 3.11, is_dc_metro_area := true }

/-- Witness for C6: re-importing the one stored activity leaves the
store unchanged, inserts nothing, and reports one skip. -/
theorem import_activities_idempotent_witness :
    (storeIds [sampleActivity]).Nodup
    ∧ (importLoop ⟨[sampleActivity], 0, 0⟩ [(sampleActivity, none)]).store = [sampleActivity]
    ∧ (importLoop ⟨[sampleActivity], 0, 0⟩ [(sampleActivity, none)]).insertedCount = 0
    ∧ (importLoop ⟨[sampleActivity], 0, 0⟩ [(sampleActivity, none)]).skippedCount = 1 := by
  have hnd : (storeIds [sampleActivity]).Nodup := by
    simp [storeIds]
  have h := (import_activities_idempotent [sampleActivity] [(sampleActivity, none)] hnd).2.2.2
    (by
      intro p hp
      rw [List.mem_singleton.mp hp]
      simp [hasActivityId])
  exact ⟨hnd, h.1, h.2.1, by simpa using h.2.2⟩

/-! ## Claim C10: non-unique insert errors are swallowed -/

/-- Concrete non-23505 database error code for the C10 witness
(Postgres `too_many_connections`). -/
def sampleDbErrorCode : String := "53300"

/-- C10: an insert failure with an error code other than 23505 leaves
the loop state exactly unchanged (neither counter incremented, import
not aborted); for every invocation the response is a status-200 success
with inserted + skipped bounded by the reported total; and the bound can
be strict, as the concrete one-activity run with an injected non-unique
failure shows. -/
theorem import_error_handling_counts :
    (∀ (s : ImportState) (a : ActivityRow) (code : String),
        hasActivityId s.store a.strava_activity_id = false →
        (code == uniqueViolationCode) = false →
        processActivity s a (some code) = s)
    ∧ (∀ (store : List ActivityRow) (l : List (ActivityRow × Option String)),
        (syncActivities store l).1.status = 200
        ∧ (syncActivities store l).1.inserted + (syncActivities store l).1.skipped
            ≤ (syncActivities store l).1.total)
    ∧ (syncActivities [] [(sampleActivity, some sampleDbErrorCode)]).1.inserted
        + (syncActivities [] [(sampleActivity, some sampleDbErrorCode)]).1.skipped
        < (syncActivities [] [(sampleActivity, some sampleDbErrorCode)]).1.total := by
  refine ⟨fun s a code hdup hcode => processActivity_err s a code hdup hcode,
    fun store l => ⟨rfl, ?_⟩, ?_⟩
  · have := importLoop_counts_le l ⟨store, 0, 0⟩
    dsimp only at this
    simpa [syncActivities] using this
  · show (importLoop _ _).insertedCount + (importLoop _ _).skippedCount < 1
    rw [show importLoop ⟨[], 0, 0⟩ [(sampleActivity, some sampleDbErrorCode)] =
        processActivity ⟨[], 0, 0⟩ sampleActivity (some sampleDbErrorCode) from rfl]
    rw [processActivity_err ⟨[], 0, 0⟩ sampleActivity sampleDbErrorCode rfl (by decide)]
    decide

/-- Witness for C10: the concrete non-unique failure leaves the loop
state untouched. -/
theorem import_error_handling_counts_witness :
    hasActivityId ([] : List ActivityRow) sampleActivity.strava_activity_id = false
    ∧ (sampleDbErrorCode == uniqueViolationCode) = false
    ∧ processActivity ⟨[], 0, 0⟩ sampleActivity (some sampleDbErrorCode) = ⟨[], 0, 0⟩ :=
  ⟨rfl, by decide,
    import_error_handling_counts.1 ⟨[], 0, 0⟩ sampleActivity sampleDbErrorCode rfl (by decide)⟩

/-! ## Drop qualification (`grant_drop_access_to_qualifying_users`) -/

/-- A row of the `drops` table, restricted to the columns
`grant_drop_access_to_qualifying_users` reads: the id and the three
per-tier mileage thresholds. -/
structure DropRow where
  id : Nat
  required_miles_basic : ℚ
  required_miles_premium : ℚ
  required_miles_exclusive : ℚ
deriving DecidableEq

/-- A row of the `drop_access` table. -/
structure DropAccessRow where
  drop_id : Nat
  user_id : Nat
  access_tier : String
  mileage_at_qualification : ℚ
  qualified_at : Timestamp
deriving DecidableEq

/-- The tier value inserted by the exclusive-threshold query. -/
def exclusiveTier : String := "exclusive"

/-- The tier value inserted by the premium-threshold query. -/
def premiumTier : String := "premium"

/-- The tier value inserted by the basic-threshold query. -/
def basicTier : String := "basic"

/-- Error raised when the drop id does not resolve. -/
def dropNotFoundMsg : String := "Drop not found"

/-- The `UNIQUE(drop_id, user_id)` constraint check on `drop_access`. -/
def hasGrantFor (grants : List DropAccessRow) (did uid : Nat) : Bool :=
  grants.any fun g => g.drop_id == did && g.user_id == uid

/-- Insert of one grant row under `ON CONFLICT (drop_id, user_id) DO
NOTHING`: a pre-existing row for the pair leaves the table untouched. -/
def insertGrant (grants : List DropAccessRow) (g : DropAccessRow) :
    List DropAccessRow :=
  if hasGrantFor grants g.drop_id g.user_id then grants else grants ++ [g]

/-- One `INSERT ... SELECT ... ON CONFLICT DO NOTHING` statement: the
selected rows inserted in order, each skipped on a pair conflict. -/
def insertGrants (grants : List DropAccessRow) (gs : List DropAccessRow) :
    List DropAccessRow :=
  gs.foldl insertGrant grants

/-- The rows built by one of the three tier queries: for each
`mileage_summary` row satisfying the threshold condition, a grant for
`pDropId` at the given tier, freezing `current_month_miles`
(`qualified_at` comes from its column default `now()`). -/
def tierSelection (summaries : List MileageSummaryRow)
    (cond : MileageSummaryRow → Bool) (pDropId : Nat) (tier : String)
    (now : Timestamp) : List DropAccessRow :=
  (summaries.filter cond).map fun s =>
    { drop_id := pDropId, user_id := s.user_id, access_tier := tier,
      mileage_at_qualification := s.current_month_miles, qualified_at := now }

/-- The three tier inserts of `grant_drop_access_to_qualifying_users`,
in statement order: exclusive, then premium (below exclusive), then
basic (below premium). -/
def grantAccessGrants (pDropId : Nat) (d : DropRow)
    (summaries : List MileageSummaryRow) (now : Timestamp)
    (grants : List DropAccessRow) : List DropAccessRow :=
  let g1 := insertGrants grants (tierSelection summaries
    (fun s => decide (d.required_miles_exclusive ≤ s.current_month_miles))
    pDropId exclusiveTier now)
  let g2 := insertGrants g1 (tierSelection summaries
    (fun s => decide (d.required_miles_premium ≤ s.current_month_miles) &&
      decide (s.current_month_miles < d.required_miles_exclusive))
    pDropId premiumTier now)
  insertGrants g2 (tierSelection summaries
    (fun s => decide (d.required_miles_basic ≤ s.current_month_miles) &&
      decide (s.current_month_miles < d.required_miles_premium))
    pDropId basicTier now)

/-- SQL `SELECT COUNT(*) FROM drop_access WHERE drop_id = p_drop_id`. -/
def countGrants (grants : List DropAccessRow) (did : Nat) : Nat :=
  (grants.filter fun g => g.drop_id == did).length

/-- SQL function `grant_drop_access_to_qualifying_users(p_drop_id)`:
raise when the drop is not found; otherwise run the three tier inserts
and return the final `SELECT COUNT(*)` of all grants for the drop (an
intermediate `v_granted_count` assignment after the first insert is dead
code, overwritten by that final count). -/
def grant_drop_access_to_qualifying_users (drops : List DropRow)
    (pDropId : Nat) (summaries : List MileageSummaryRow) (now : Timestamp)
    (grants : List DropAccessRow) :
    Except String (List DropAccessRow × Nat) :=
  match drops.find? (fun d => d.id == pDropId) with
  | none => Except.error dropNotFoundMsg
  | some d =>
      let g3 := grantAccessGrants pDropId d summaries now grants
      Except.ok (g3, countGrants g3 pDropId)

/-! ## Helper lemmas for the drop claims -/

lemma insertGrant_sublist (grants : List DropAccessRow) (g : DropAccessRow) :
    grants.Sublist (insertGrant grants g) := by
  unfold insertGrant
  by_cases h : hasGrantFor grants g.drop_id g.user_id = true
  · rw [if_pos h]
  · rw [if_neg h]
    exact List.sublist_append_left _ _

lemma insertGrants_sublist (gs : List DropAccessRow) :
    ∀ grants : List DropAccessRow, grants.Sublist (insertGrants grants gs) := by
  induction gs with
  | nil => intro grants; exact List.Sublist.refl _
  | cons g rest ih =>
      intro grants
      exact (insertGrant_sublist grants g).trans (ih (insertGrant grants g))

lemma countGrants_le_of_sublist {l₁ l₂ : List DropAccessRow}
    (h : l₁.Sublist l₂) (did : Nat) :
    countGrants l₁ did ≤ countGrants l₂ did :=
  List.Sublist.length_le (h.filter _)

/-- A conflict-is-noop insert touches no row of an already-granted
(drop, user) pair: the rows of the pair are exactly preserved. -/
lemma insertGrant_pair_preserved (grants : List DropAccessRow)
    (g : DropAccessRow) (did uid : Nat)
    (h : hasGrantFor grants did uid = true) :
    hasGrantFor (insertGrant grants g) did uid = true ∧
    (insertGrant grants g).filter (fun x => x.drop_id == did && x.user_id == uid) =
      grants.filter (fun x => x.drop_id == did && x.user_id == uid) := by
  unfold insertGrant
  by_cases hg : hasGrantFor grants g.drop_id g.user_id = true
  · rw [if_pos hg]
    exact ⟨h, rfl⟩
  · rw [if_neg hg]
    have hpred : (g.drop_id == did && g.user_id == uid) = false := by
      cases hb : (g.drop_id == did && g.user_id == uid) with
      | false => rfl
      | true =>
          have hb2 : g.drop_id = did ∧ g.user_id = uid := by simpa using hb
          rw [hb2.1, hb2.2] at hg
          exact False.elim (hg h)
    constructor
    · unfold hasGrantFor at h ⊢
      rw [List.any_append, h]
      rfl
    · rw [List.filter_append]
      simp [hpred]

lemma insertGrants_pair_preserved (did uid : Nat) (gs : List DropAccessRow) :
    ∀ grants : List DropAccessRow, hasGrantFor grants did uid = true →
      hasGrantFor (insertGrants grants gs) did uid = true ∧
      (insertGrants grants gs).filter
          (fun x => x.drop_id == did && x.user_id == uid) =
        grants.filter (fun x => x.drop_id == did && x.user_id == uid) := by
  induction gs with
  | nil => intro grants h; exact ⟨h, rfl⟩
  | cons g rest ih =>
      intro grants h
      obtain ⟨h1, e1⟩ := insertGrant_pair_preserved grants g did uid h
      obtain ⟨h2, e2⟩ := ih (insertGrant grants g) h1
      exact ⟨h2, e2.trans e1⟩

lemma grantAccessGrants_pair_preserved (pDropId : Nat) (d : DropRow)
    (summaries : List MileageSummaryRow) (now : Timestamp)
    (grants : List DropAccessRow) (uid : Nat)
    (h : hasGrantFor grants pDropId uid = true) :
    hasGrantFor (grantAccessGrants pDropId d summaries now grants) pDropId uid = true ∧
    (grantAccessGrants pDropId d summaries now grants).filter
        (fun x => x.drop_id == pDropId && x.user_id == uid) =
      grants.filter (fun x => x.drop_id == pDropId && x.user_id == uid) := by
  unfold grantAccessGrants
  obtain ⟨h1, e1⟩ := insertGrants_pair_preserved pDropId uid _ grants h
  obtain ⟨h2, e2⟩ := insertGrants_pair_preserved pDropId uid _ _ h1
  obtain ⟨h3, e3⟩ := insertGrants_pair_preserved pDropId uid _ _ h2
  exact ⟨h3, e3.trans (e2.trans e1)⟩

/-! ## Claim C1: the returned count is the post-call total -/

/-- C1: when the drop id resolves, the function succeeds and returns
exactly the number of `drop_access` rows existing for the drop after the
call; every pre-existing grant is still among them, so the count
includes pre-existing grants and is at least their number — not merely
the newly created ones. -/
theorem grant_access_returns_total_count (drops : List DropRow)
    (pDropId : Nat) (summaries : List MileageSummaryRow) (now : Timestamp)
    (grants : List DropAccessRow) (d : DropRow)
    (hfind : drops.find? (fun x => x.id == pDropId) = some d) :
    ∃ post n,
      grant_drop_access_to_qualifying_users drops pDropId summaries now grants
        = Except.ok (post, n)
      ∧ n = countGrants post pDropId
      ∧ grants.Sublist post
      ∧ countGrants grants pDropId ≤ n := by
  have hsub : grants.Sublist (grantAccessGrants pDropId d summaries now grants) := by
    unfold grantAccessGrants
    exact ((insertGrants_sublist _ grants).trans (insertGrants_sublist _ _)).trans
      (insertGrants_sublist _ _)
  refine ⟨grantAccessGrants pDropId d summaries now grants,
    countGrants (grantAccessGrants pDropId d summaries now grants) pDropId,
    ?_, rfl, hsub, countGrants_le_of_sublist hsub _⟩
  unfold grant_drop_access_to_qualifying_users
  rw [hfind]

/-- Concrete drop for the C1/C2 witnesses. -/
def sampleDrop : DropRow := ⟨1, 50, 100, 150⟩

/-- Concrete pre-existing grant for the C1/C2 witnesses. -/
def sampleGrant : DropAccessRow := ⟨1, 2, basicTier, 60, ⟨2026, 1, 5, 0⟩⟩

/-- Witness for C1 on a concrete drop table with one pre-existing grant. -/
theorem grant_access_returns_total_count_witness :
    ([sampleDrop].find? (fun x => x.id == 1) = some sampleDrop)
    ∧ ∃ post n,
        grant_drop_access_to_qualifying_users [sampleDrop] 1 []
            ⟨2026, 1, 20, 0⟩ [sampleGrant] = Except.ok (post, n)
        ∧ n = countGrants post 1
        ∧ [sampleGrant].Sublist post
        ∧ countGrants [sampleGrant] 1 ≤ n :=
  ⟨rfl, grant_access_returns_total_count [sampleDrop] 1 [] ⟨2026, 1, 20, 0⟩
    [sampleGrant] sampleDrop rfl⟩

/-! ## Claim C2: existing grants are frozen -/

/-- C2: when the drop id resolves and a (drop, user) pair already has a
grant, the call succeeds and the grant rows of the pair afterwards are
exactly the grant rows of the pair before — the same single row with the same
tier and the same frozen mileage, no second row — whatever the current
`mileage_summary` contents are. -/
theorem grant_access_preserves_existing_pair (drops : List DropRow)
    (pDropId : Nat) (summaries : List MileageSummaryRow) (now : Timestamp)
    (grants : List DropAccessRow) (d : DropRow) (uid : Nat)
    (hfind : drops.find? (fun x => x.id == pDropId) = some d)
    (hpair : hasGrantFor grants pDropId uid = true) :
    ∃ post n,
      grant_drop_access_to_qualifying_users drops pDropId summaries now grants
        = Except.ok (post, n)
      ∧ post.filter (fun g => g.drop_id == pDropId && g.user_id == uid) =
          grants.filter (fun g => g.drop_id == pDropId && g.user_id == uid) := by
  refine ⟨grantAccessGrants pDropId d summaries now grants,
    countGrants (grantAccessGrants pDropId d summaries now grants) pDropId,
    ?_, (grantAccessGrants_pair_preserved pDropId d summaries now grants uid hpair).2⟩
  unfold grant_drop_access_to_qualifying_users
  rw [hfind]

/-- Concrete changed summary table for the C2 witness: the granted
current-month mileage of the granted user has since risen to exclusive level. -/
def sampleChangedSummary : MileageSummaryRow :=
  { user_id := 2, current_month_miles := 200, last_month_miles := 0,
    current_year_miles := 200, total_miles := 200, total_activities := 3,
    dc_activities := 3, last_activity_date := none,
    access_tier := exclusiveTier, last_calculated_at := ⟨2026, 1, 19, 0⟩,
    created_at := ⟨2026, 1, 5, 0⟩, updated_at := ⟨2026, 1, 19, 0⟩ }

/-- Witness for C2: re-running qualification after the mileage of the
user changed leaves the grant rows of the pair exactly as before. -/
theorem grant_access_preserves_existing_pair_witness :
    ([sampleDrop].find? (fun x => x.id == 1) = some sampleDrop)
    ∧ hasGrantFor [sampleGrant] 1 2 = true
    ∧ ∃ post n,
        grant_drop_access_to_qualifying_users [sampleDrop] 1
            [sampleChangedSummary] ⟨2026, 1, 20, 0⟩ [sampleGrant]
          = Except.ok (post, n)
        ∧ post.filter (fun g => g.drop_id == 1 && g.user_id == 2) =
            [sampleGrant].filter (fun g => g.drop_id == 1 && g.user_id == 2) :=
  ⟨rfl, rfl, grant_access_preserves_existing_pair [sampleDrop] 1
    [sampleChangedSummary] ⟨2026, 1, 20, 0⟩ [sampleGrant] sampleDrop 2 rfl rfl⟩

end DistrictRun
